import Mathlib

/-!
Shallow embedding of `generate_master_reference.py`: a three-stage join
pipeline over CSV rows (Python dicts), verified below.

A `Row` models a Python `dict` produced by `csv.DictReader`: an ordered
association list from field name to string value.  `row.get(k, d)` becomes
`getD`, `row[k] = v` becomes `setField` (update in place, else append — the
insertion-order semantics of Python dicts), and a missing field read with a
`""` default models `csv`'s behaviour for absent columns.
-/

set_option autoImplicit false

namespace MasterReference

/-- A CSV row: ordered association list from field name to string value,
mirroring a Python `dict`. -/
abbrev Row := List (String × String)

/-- `row.get(k, d)`: value of the first entry with key `k`, else default. -/
def getD (r : Row) (k d : String) : String :=
  match r.find? (fun p => p.1 == k) with
  | some p => p.2
  | none => d

/-- `row[k] = v`: replace the first entry with key `k`, else append at the
end (Python dict insertion-order update). -/
def setField : Row → String → String → Row
  | [], k, v => [(k, v)]
  | p :: ps, k, v => if p.1 == k then (k, v) :: ps else p :: setField ps k v

/-- `clean` (source lines 38-41): Python `str.strip()`, surrounding
whitespace removed (computed on the character list so that proofs can
evaluate it).  The Python `None` branch corresponds to a missing CSV
field, which the embedding reads through `getD _ _ ""`. -/
def clean (s : String) : String :=
  ⟨((s.data.dropWhile Char.isWhitespace).reverse.dropWhile
      Char.isWhitespace).reverse⟩

/-- Python `str.upper()` (ASCII case mapping, computed on the character
list so that proofs can evaluate it; the symbols and tickers joined here
are ASCII). -/
def upper (s : String) : String := ⟨s.data.map Char.toUpper⟩

/-- `row[k] = clean(row.get(k, ""))`: one line of the key-standardisation
loops (source lines 43-54). -/
def cleanField (r : Row) (k : String) : Row := setField r k (clean (getD r k ""))

/-- Key normalisation of one `si_au_ref_names` (sirca) row, source lines
43-45. -/
def normSirca (r : Row) : Row :=
  cleanField (cleanField r "MS_CompanyID") "MS_SecurityID"

/-- Key normalisation of one `SecurityReference` (secref) row, source lines
47-50. -/
def normSecref (r : Row) : Row :=
  cleanField (cleanField (cleanField r "CompanyId") "ShareClassId") "ISIN"

/-- Key normalisation of one `MasterCompany` row, source lines 52-54. -/
def normMaster (r : Row) : Row :=
  cleanField (cleanField r "ISIN") "Symbol"

/-- The `sr_cols_keep` base list (source lines 61-73), before the filter
against `secref_cols`. -/
def sr_cols_keep_base : List String :=
  ["CompanyId", "ShareClassId",
   "ISIN", "CUSIP", "Valoren",
   "ExchangeId", "CurrencyId", "MIC",
   "IPODate", "IPOOfferPrice", "IPOOfferPriceRange",
   "IsDepositaryReceipt", "DepositaryReceiptRatio",
   "SecurityType",
   "ShareClassDescription", "ShareClassStatus",
   "IsPrimaryShare", "IsDividendReinvest", "IsDirectInvest",
   "InvestmentId",
   "CommonShareSubType", "ExchangeSubMarketGlobalId",
   "ConversionRatio", "ActiveOrDelisted"]

/-- The `mc_cols_keep` base list (source lines 104-118), before the filter
against `master_cols`. -/
def mc_cols_keep_base : List String :=
  ["ISIN",
   "Identifier",
   "ACN", "ABN",
   "HomeMarket",
   "GICSSector", "GICSIndGrp",
   "ASXSector", "ASXSubSector",
   "FormerNames",
   "TradingStatus",
   "ListDate", "DelistDate", "DelistReason",
   "Address", "City", "State", "Postcode",
   "PhoneNumber", "FaxNumber",
   "WebAddress", "EmailAddress",
   "RegistryId", "Template", "ASX300"]

/-- One iteration of a first-match-wins index-building loop: Python
`if key != bad and key not in d: d[key] = row`, the dict modelled as an
ordered association list (append preserves Python dict insertion order;
later duplicates are ignored). -/
def indexStep {α : Type} [BEq α] [DecidableEq α] (bad : α) (keyOf : Row → α)
    (d : List (α × Row)) (row : Row) : List (α × Row) :=
  let key := keyOf row
  if key ≠ bad ∧ ¬ d.any (fun p => p.1 == key) then d ++ [(key, row)] else d

/-- `d.get(k)` on a dict modelled as an ordered association list. -/
def lookupGet? {α : Type} [BEq α] (d : List (α × Row)) (k : α) : Option Row :=
  (d.find? (fun p => p.1 == k)).map (fun p => p.2)

/-- `sr_lookup` construction (source lines 77-81): first row per composite
key `(CompanyId, ShareClassId)`, the key `("", "")` never indexed. -/
def sr_lookup (secref : List Row) : List ((String × String) × Row) :=
  secref.foldl
    (indexStep ("", "")
      (fun row => (getD row "CompanyId" "", getD row "ShareClassId" ""))) []

/-- `mc_isin_lookup` construction (source lines 122-126): first row per
non-empty ISIN. -/
def mc_isin_lookup (master : List Row) : List (String × Row) :=
  master.foldl (indexStep "" (fun row => getD row "ISIN" "")) []

/-- `mc_symbol_lookup` construction (source lines 146-150): first row per
non-empty uppercased Symbol. -/
def mc_symbol_lookup (master : List Row) : List (String × Row) :=
  master.foldl (indexStep "" (fun row => upper (getD row "Symbol" ""))) []

/-- `for col in cols: r[pre + col] = v col` — the namespaced enrichment
loop shared by the three join steps (source lines 91-95, 134-138,
161-162). -/
def setCols (pre : String) (v : String → String) (cols : List String)
    (r : Row) : Row :=
  cols.foldl (fun nr c => setField nr (pre ++ c) (v c)) r

/-- Step-1 body (source lines 85-96): copy of the sirca row, enriched with
`SR_`-prefixed fields from the first matching secref row, or with empty
strings when the composite key is `("", "")` or unmatched.  The
`Row.isEmpty` test mirrors Python's `if sr_row:` truthiness (an empty dict
is falsy). -/
def step1Row (srL : List ((String × String) × Row)) (srCols : List String)
    (row : Row) : Row :=
  let key := (getD row "MS_CompanyID" "", getD row "MS_SecurityID" "")
  let srRow? := if key ≠ ("", "") then lookupGet? srL key else none
  match srRow? with
  | some srRow =>
      if srRow.isEmpty then setCols "SR_" (fun _ => "") srCols row
      else setCols "SR_" (fun c => getD srRow c "") srCols row
  | none => setCols "SR_" (fun _ => "") srCols row

/-- The condition under which step 2 counts a match (`n_step2 += 1`,
source lines 128-133). -/
def step2Matched (isinL : List (String × Row)) (mrow : Row) : Bool :=
  let srIsin := getD mrow "SR_ISIN" ""
  match (if srIsin ≠ "" then lookupGet? isinL srIsin else none) with
  | some mcRow => !mcRow.isEmpty
  | none => false

/-- Step-2 body (source lines 129-138): enrich a merged row with
`MC_`-prefixed fields from the first master row with the same non-empty
ISIN, else with empty strings. -/
def step2Row (isinL : List (String × Row)) (mcCols : List String)
    (mrow : Row) : Row :=
  let srIsin := getD mrow "SR_ISIN" ""
  let mcRow? := if srIsin ≠ "" then lookupGet? isinL srIsin else none
  match mcRow? with
  | some mcRow =>
      if mcRow.isEmpty then setCols "MC_" (fun _ => "") mcCols mrow
      else setCols "MC_" (fun c => getD mcRow c "") mcCols mrow
  | none => setCols "MC_" (fun _ => "") mcCols mrow

/-- The step-3 probe (source lines 157-158): uppercase the cleaned
`CompanyTicker` and, when non-empty, look it up in the symbol index. -/
def step3Probe (symL : List (String × Row)) (mrow : Row) : Option Row :=
  let ticker := upper (clean (getD mrow "CompanyTicker" ""))
  if ticker ≠ "" then lookupGet? symL ticker else none

/-- Step-3 fallback body (source lines 153-162): a row with any of
`MC_ABN`, `MC_ACN`, `MC_TradingStatus` non-empty is skipped (`continue`);
otherwise the uppercased cleaned `CompanyTicker` probes the symbol index
and, on a (truthy) hit, the same `MC_` fields are overwritten. -/
def step3Row (symL : List (String × Row)) (mcCols : List String)
    (mrow : Row) : Row :=
  if getD mrow "MC_ABN" "" ≠ "" ∨ getD mrow "MC_ACN" "" ≠ "" ∨
      getD mrow "MC_TradingStatus" "" ≠ "" then
    mrow
  else
    match step3Probe symL mrow with
    | some mcRow =>
        if mcRow.isEmpty then mrow
        else setCols "MC_" (fun c => getD mcRow c "") mcCols mrow
    | none => mrow

/-- The fixed `output_cols` list (source lines 171-224). -/
def output_cols_fixed : List String :=
  ["Gcode",
   "SR_CompanyId", "SR_ShareClassId",
   "SR_ISIN", "SR_CUSIP", "SR_Valoren",
   "CompanyTicker", "SecurityTicker",
   "MC_Identifier",
   "MA_Identifier",
   "FullCompanyName", "AbbrevCompanyName",
   "GICSIndustry",
   "SIRCAIndustryClassCode", "SIRCASectorCode",
   "EarliestListDate", "LatestDelistDate",
   "CompanyDelistReasonCode", "CompanyRelatedGCode",
   "CompanyDelistReasonComment",
   "SeniorSecurity", "SecurityType",
   "AbreviatedSecurityDescription",
   "ListDate_YMD", "DelistDate_YMD",
   "ListDate", "DelistDate",
   "RecordCount",
   "AlteredLink",
   "SR_ExchangeId", "SR_CurrencyId", "SR_MIC",
   "SR_SecurityType",
   "SR_ShareClassDescription", "SR_ShareClassStatus",
   "SR_IsPrimaryShare",
   "SR_IsDepositaryReceipt", "SR_DepositaryReceiptRatio",
   "SR_IPODate", "SR_IPOOfferPrice", "SR_IPOOfferPriceRange",
   "SR_IsDividendReinvest", "SR_IsDirectInvest",
   "SR_InvestmentId",
   "SR_CommonShareSubType", "SR_ExchangeSubMarketGlobalId",
   "SR_ConversionRatio", "SR_ActiveOrDelisted",
   "MC_ACN", "MC_ABN",
   "MC_HomeMarket",
   "MC_GICSSector", "MC_GICSIndGrp",
   "MC_ASXSector", "MC_ASXSubSector",
   "MC_FormerNames",
   "MC_TradingStatus",
   "MC_ListDate", "MC_DelistDate", "MC_DelistReason",
   "MC_Address", "MC_City", "MC_State", "MC_Postcode",
   "MC_PhoneNumber", "MC_FaxNumber",
   "MC_WebAddress", "MC_EmailAddress",
   "MC_RegistryId", "MC_Template", "MC_ASX300",
   "MS_CompanyID", "MS_SecurityID",
   "MS_CompanyID2", "MS_SecurityID2"]

/-- The `skip` exclusion set (source line 232). -/
def skip_cols : List String :=
  ["join_key", "ListDate_DaysSince", "DelistDate_DaysSince"]

/-- Output-column organisation (source lines 226-236): filter the fixed list
to names available in `merged[0]` (empty set when `merged` is empty), then
append each sirca-schema column that is neither in that filtered list
(`all_output_set` is computed once, before the loop) nor in `skip`. -/
def computeOutputCols (merged : List Row) (sircaCols : List String) : List String :=
  let available : List String :=
    match merged with
    | [] => []
    | r :: _ => r.map (fun p => p.1)
  let cols := output_cols_fixed.filter (fun c => available.contains c)
  sircaCols.foldl
    (fun acc col =>
      if ¬ cols.contains col ∧ ¬ skip_cols.contains col then acc ++ [col]
      else acc)
    cols

/-- `csv.DictWriter` with `extrasaction="ignore"` and default `restval=""`
(source lines 240-243): each written row holds exactly the fieldnames in
order, a field missing from the dict becoming the empty string. -/
def projectRow (cols : List String) (r : Row) : Row :=
  cols.map (fun c => (c, getD r c ""))

/-- The result of a run: the merged rows after the three join steps, the
final column list, and the rows as written to the output file. -/
structure PipelineResult where
  merged : List Row
  outputCols : List String
  output : List Row

/-- The whole pipeline (source lines 43-243): normalise the three
collections in place, run the composite-key join, the ISIN join and the
symbol fallback, organise the output columns and write.  Schema lists
(`*_cols`) are the fieldname lists returned by the readers. -/
def runPipeline (sirca : List Row) (sircaCols : List String)
    (secref : List Row) (secrefCols : List String)
    (master : List Row) (masterCols : List String) : PipelineResult :=
  let sirca := sirca.map normSirca
  let secref := secref.map normSecref
  let master := master.map normMaster
  let srCols := sr_cols_keep_base.filter (fun c => secrefCols.contains c)
  let srL := sr_lookup secref
  let merged := sirca.map (step1Row srL srCols)
  let mcCols := mc_cols_keep_base.filter (fun c => masterCols.contains c)
  let isinL := mc_isin_lookup master
  let merged2 := merged.map (step2Row isinL mcCols)
  let symL := mc_symbol_lookup master
  let merged3 := merged2.map (step3Row symL mcCols)
  let outCols := computeOutputCols merged3 sircaCols
  { merged := merged3, outputCols := outCols,
    output := merged3.map (projectRow outCols) }

/-- The field-name list of a row (`row.keys()`). -/
def keys (r : Row) : List String := r.map (fun p => p.1)

/-! ### Concrete input collections used in counterexamples and witnesses -/

/-- A primary row whose composite key matches `exSecref`'s only row. -/
def exSircaRow : Row :=
  [("MS_CompanyID", "1"), ("MS_SecurityID", "A"), ("CompanyTicker", "t"),
   ("Gcode", "G1")]

/-- A secondary row joining `exSircaRow` to ISIN `"X"`. -/
def exSecref : List Row :=
  [[("CompanyId", "1"), ("ShareClassId", "A"), ("ISIN", "X")]]

def exSecrefCols : List String := ["CompanyId", "ShareClassId", "ISIN"]

/-- A tertiary collection whose ISIN `"X"` row has empty `ABN`, `ACN` and
`TradingStatus`, while symbol `"T"` carries `ABN = "9"`. -/
def exMaster : List Row :=
  [[("ISIN", "X"), ("Symbol", ""), ("ABN", ""), ("ACN", ""), ("TradingStatus", "")],
   [("ISIN", ""), ("Symbol", "T"), ("ABN", "9"), ("ACN", ""), ("TradingStatus", "")]]

def exMasterCols : List String := ["ISIN", "Symbol", "ABN", "ACN", "TradingStatus"]

def exMcCols : List String :=
  mc_cols_keep_base.filter (fun c => exMasterCols.contains c)

/-- `exSircaRow` after normalisation and the step-1 join against
`exSecref`. -/
def exMerged1 : Row :=
  step1Row (sr_lookup (exSecref.map normSecref))
    (sr_cols_keep_base.filter (fun c => exSecrefCols.contains c))
    (normSirca exSircaRow)

/-- `exMerged1` after the step-2 ISIN join against `exMaster`. -/
def exMerged2 : Row :=
  step2Row (mc_isin_lookup (exMaster.map normMaster)) exMcCols exMerged1

/-- The spec's concrete scenario: one primary row, empty secondary source,
one tertiary row reachable only through the symbol fallback. -/
def scResult : PipelineResult :=
  runPipeline
    [[("MS_CompanyID", "1"), ("MS_SecurityID", "A"), ("CompanyTicker", "xyz")]]
    ["MS_CompanyID", "MS_SecurityID", "CompanyTicker"]
    [] ["CompanyId", "ShareClassId", "ISIN"]
    [[("Symbol", "XYZ"), ("ABN", "123")]]
    ["Symbol", "ABN"]

/-! ## Basic lemmas: rows, fields and key sets -/

theorem getD_cons (p : String × String) (ps : Row) (k d : String) :
    getD (p :: ps) k d = if p.1 = k then p.2 else getD ps k d := by
  by_cases h : p.1 = k
  · simp [getD, List.find?, h]
  · have hb : (p.1 == k) = false := by simp [h]
    simp [getD, List.find?, hb, h]

theorem setField_cons (p : String × String) (ps : Row) (k v : String) :
    setField (p :: ps) k v =
      if p.1 = k then (k, v) :: ps else p :: setField ps k v := by
  simp only [setField]
  by_cases h : p.1 = k <;> simp [h]

theorem mem_keys_setField (r : Row) (k v a : String) :
    a ∈ keys (setField r k v) ↔ a = k ∨ a ∈ keys r := by
  induction r with
  | nil => simp [setField, keys]
  | cons p ps ih =>
      rw [setField_cons]
      by_cases h : p.1 = k
      · subst h
        simp [keys]
      · simp only [if_neg h, keys, List.map_cons, List.mem_cons] at ih ⊢
        rw [ih]
        tauto

theorem setCols_cons (pre : String) (v : String → String) (c : String)
    (cs : List String) (r : Row) :
    setCols pre v (c :: cs) r = setCols pre v cs (setField r (pre ++ c) (v c)) := rfl

theorem mem_keys_setCols (pre : String) (v : String → String)
    (cols : List String) (r : Row) (a : String) :
    a ∈ keys (setCols pre v cols r) ↔ a ∈ keys r ∨ ∃ c ∈ cols, a = pre ++ c := by
  induction cols generalizing r with
  | nil => simp [setCols]
  | cons c cs ih =>
      rw [setCols_cons, ih, mem_keys_setField]
      simp only [List.mem_cons]
      constructor
      · rintro ((h | h) | ⟨x, hx, hax⟩)
        · exact Or.inr ⟨c, Or.inl rfl, h⟩
        · exact Or.inl h
        · exact Or.inr ⟨x, Or.inr hx, hax⟩
      · rintro (h | ⟨x, hx | hx, hax⟩)
        · exact Or.inl (Or.inr h)
        · exact Or.inl (Or.inl (hx ▸ hax))
        · exact Or.inr ⟨x, hx, hax⟩

/-! ## First-match-wins index lemmas -/

theorem lookupGet_append_single {α : Type} [BEq α] (d : List (α × Row))
    (key : α) (r : Row) (k : α) :
    lookupGet? (d ++ [(key, r)]) k =
      match lookupGet? d k with
      | some v => some v
      | none => if key == k then some r else none := by
  induction d with
  | nil =>
      simp only [List.nil_append, lookupGet?, List.find?]
      cases h : key == k <;> simp [h]
  | cons p d ih =>
      cases h : p.1 == k
      · simp only [List.cons_append, lookupGet?, List.find?, h] at ih ⊢
        exact ih
      · simp [lookupGet?, List.find?, h]

theorem lookupGet_eq_none_iff {α : Type} [BEq α] (d : List (α × Row)) (k : α) :
    lookupGet? d k = none ↔ (d.any fun p => p.1 == k) = false := by
  induction d with
  | nil => simp [lookupGet?]
  | cons p d ih =>
      cases h : p.1 == k
      · simp [lookupGet?, List.find?, h]
      · simp [lookupGet?, List.find?, h]

/-- Spine of the three index constructions: a first-match-wins dict built by
`insert if absent`, probed with `get`, returns the first source row whose
key matches, never touching the excluded `bad` key. -/
theorem lookupGet_foldl_indexStep {α : Type} [BEq α] [LawfulBEq α] [DecidableEq α]
    (bad : α) (keyOf : Row → α) (rows : List Row) (d : List (α × Row)) (k : α) :
    lookupGet? (rows.foldl (indexStep bad keyOf) d) k =
      match lookupGet? d k with
      | some v => some v
      | none => if k = bad then none else rows.find? (fun r => keyOf r == k) := by
  induction rows generalizing d with
  | nil =>
      cases h : lookupGet? d k <;> simp [h, List.find?]
  | cons row rows ih =>
      rw [List.foldl_cons, ih]
      have hstep : indexStep bad keyOf d row =
          if keyOf row ≠ bad ∧ ¬ (d.any fun p => p.1 == keyOf row) = true then
            d ++ [(keyOf row, row)]
          else d := rfl
      by_cases hcond : keyOf row ≠ bad ∧ ¬ (d.any fun p => p.1 == keyOf row) = true
      · rw [hstep, if_pos hcond, lookupGet_append_single]
        cases h : lookupGet? d k with
        | some v => simp [h]
        | none =>
            by_cases hkk : keyOf row = k
            · have hbt : (keyOf row == k) = true := by simp [hkk]
              have hkb : ¬ k = bad := fun hh => hcond.1 (by rw [hkk, hh])
              simp [h, hbt, hkb, List.find?]
            · have hbf : (keyOf row == k) = false := by simp [hkk]
              simp [h, hbf, List.find?]
      · rw [hstep, if_neg hcond]
        cases h : lookupGet? d k with
        | some v => simp [h]
        | none =>
            by_cases hkb : k = bad
            · simp [h, hkb]
            · have hbf : (keyOf row == k) = false := by
                rcases not_and_or.mp hcond with h1 | h2
                · have hb : keyOf row = bad := not_not.mp h1
                  have hne : keyOf row ≠ k := by
                    rw [hb]
                    exact fun hh => hkb hh.symm
                  simp [hne]
                · have hany : (d.any fun p => p.1 == keyOf row) = true := by
                    by_contra hc
                    exact h2 (by simpa using hc)
                  by_contra hc
                  have hk : keyOf row = k := by
                    simpa using (Bool.not_eq_false _).mp hc
                  rw [hk] at hany
                  rw [lookupGet_eq_none_iff] at h
                  rw [h] at hany
                  exact Bool.false_ne_true hany
              simp [h, hkb, hbf, List.find?]

/-- `sr_lookup` maps every non-`("", "")` key to the first secref row with
that composite key, and holds nothing under `("", "")`. -/
theorem sr_lookup_get (secref : List Row) (k : String × String) :
    lookupGet? (sr_lookup secref) k =
      if k = ("", "") then none
      else secref.find?
        (fun r => (getD r "CompanyId" "", getD r "ShareClassId" "") == k) := by
  rw [sr_lookup, lookupGet_foldl_indexStep]
  rfl

/-- `mc_isin_lookup` maps every non-empty ISIN to the first master row with
that ISIN, and holds nothing under `""`. -/
theorem mc_isin_lookup_get (master : List Row) (k : String) :
    lookupGet? (mc_isin_lookup master) k =
      if k = "" then none
      else master.find? (fun r => getD r "ISIN" "" == k) := by
  rw [mc_isin_lookup, lookupGet_foldl_indexStep]
  rfl

/-- `mc_symbol_lookup` maps every non-empty uppercased symbol to the first
master row whose uppercased `Symbol` equals it, and holds nothing under
`""` (empty-symbol rows are never indexed). -/
theorem mc_symbol_lookup_get (master : List Row) (k : String) :
    lookupGet? (mc_symbol_lookup master) k =
      if k = "" then none
      else master.find? (fun r => upper (getD r "Symbol" "") == k) := by
  rw [mc_symbol_lookup, lookupGet_foldl_indexStep]
  rfl

/-! ## Key-set lemmas for the pipeline stages -/

theorem mem_keys_normSirca (r : Row) (a : String) :
    a ∈ keys (normSirca r) ↔
      a ∈ keys r ∨ a = "MS_CompanyID" ∨ a = "MS_SecurityID" := by
  simp only [normSirca, cleanField, mem_keys_setField]
  tauto

theorem mem_keys_step1Row (srL : List ((String × String) × Row))
    (srCols : List String) (row : Row) (a : String) :
    a ∈ keys (step1Row srL srCols row) ↔
      a ∈ keys row ∨ ∃ c ∈ srCols, a = "SR_" ++ c := by
  unfold step1Row
  dsimp only
  split
  · split
    · exact mem_keys_setCols _ _ _ _ _
    · exact mem_keys_setCols _ _ _ _ _
  · exact mem_keys_setCols _ _ _ _ _

theorem mem_keys_step2Row (isinL : List (String × Row))
    (mcCols : List String) (mrow : Row) (a : String) :
    a ∈ keys (step2Row isinL mcCols mrow) ↔
      a ∈ keys mrow ∨ ∃ c ∈ mcCols, a = "MC_" ++ c := by
  unfold step2Row
  dsimp only
  split
  · split
    · exact mem_keys_setCols _ _ _ _ _
    · exact mem_keys_setCols _ _ _ _ _
  · exact mem_keys_setCols _ _ _ _ _

theorem mem_keys_step3Row (symL : List (String × Row))
    (mcCols : List String) (mrow : Row) (a : String)
    (hsub : ∀ c ∈ mcCols, ("MC_" ++ c) ∈ keys mrow) :
    a ∈ keys (step3Row symL mcCols mrow) ↔ a ∈ keys mrow := by
  unfold step3Row
  split
  · exact Iff.rfl
  · split
    · split
      · exact Iff.rfl
      · rw [mem_keys_setCols]
        constructor
        · rintro (h | ⟨c, hc, rfl⟩)
          · exact h
          · exact hsub c hc
        · exact Or.inl
    · exact Iff.rfl

/-! ## Claim theorems -/

/-- C2: for every triple of input collections (including empty secondary
and tertiary collections), the number of output rows equals the number of
primary-collection rows — each primary row yields exactly one merged row,
matched or not, and every merged row is written. -/
theorem C2_row_conservation (sirca : List Row) (sircaCols : List String)
    (secref : List Row) (secrefCols : List String)
    (master : List Row) (masterCols : List String) :
    (runPipeline sirca sircaCols secref secrefCols master masterCols).output.length
        = sirca.length ∧
    (runPipeline sirca sircaCols secref secrefCols master masterCols).merged.length
        = sirca.length := by
  simp [runPipeline]

/-- C4: each of the three lookup indexes — composite
`(CompanyId, ShareClassId)`, ISIN, uppercased Symbol — maps every key it
contains to the first row in the source collection's input order whose key
equals it (and nothing else), so duplicate-keyed rows always resolve to
the first in input order. -/
theorem C4_first_match_wins :
    (∀ (secref : List Row) (k : String × String),
        lookupGet? (sr_lookup secref) k =
          if k = ("", "") then none
          else secref.find?
            (fun r => (getD r "CompanyId" "", getD r "ShareClassId" "") == k)) ∧
    (∀ (master : List Row) (k : String),
        lookupGet? (mc_isin_lookup master) k =
          if k = "" then none
          else master.find? (fun r => getD r "ISIN" "" == k)) ∧
    (∀ (master : List Row) (k : String),
        lookupGet? (mc_symbol_lookup master) k =
          if k = "" then none
          else master.find? (fun r => upper (getD r "Symbol" "") == k)) :=
  ⟨sr_lookup_get, mc_isin_lookup_get, mc_symbol_lookup_get⟩

/-- C5: no lookup index stores an entry under an empty key — the composite
index never holds `("", "")`, the ISIN and symbol indexes never hold `""` —
and a row whose composite key is `("", "")` (or whose `SR_ISIN` /
cleaned-uppercased ticker is empty at the later stages) is always treated
as unmatched. -/
theorem C5_empty_keys_never_match :
    (∀ secref : List Row, lookupGet? (sr_lookup secref) ("", "") = none) ∧
    (∀ master : List Row, lookupGet? (mc_isin_lookup master) "" = none) ∧
    (∀ master : List Row, lookupGet? (mc_symbol_lookup master) "" = none) ∧
    (∀ (srL : List ((String × String) × Row)) (srCols : List String) (row : Row),
        (getD row "MS_CompanyID" "", getD row "MS_SecurityID" "") = ("", "") →
        step1Row srL srCols row = setCols "SR_" (fun _ => "") srCols row) ∧
    (∀ (isinL : List (String × Row)) (mcCols : List String) (mrow : Row),
        getD mrow "SR_ISIN" "" = "" →
        step2Row isinL mcCols mrow = setCols "MC_" (fun _ => "") mcCols mrow) ∧
    (∀ (symL : List (String × Row)) (mcCols : List String) (mrow : Row),
        upper (clean (getD mrow "CompanyTicker" "")) = "" →
        step3Row symL mcCols mrow = mrow) := by
  refine ⟨?_, ?_, ?_, ?_, ?_, ?_⟩
  · intro secref
    rw [sr_lookup_get]
    simp
  · intro master
    rw [mc_isin_lookup_get]
    simp
  · intro master
    rw [mc_symbol_lookup_get]
    simp
  · intro srL srCols row h
    simp [step1Row, h]
  · intro isinL mcCols mrow h
    simp [step2Row, h]
  · intro symL mcCols mrow h
    unfold step3Row
    split
    · rfl
    · simp [step3Probe, h]

theorem C5_empty_keys_never_match_witness :
    step1Row [] ["ISIN"] [("MS_CompanyID", ""), ("MS_SecurityID", "")]
        = setCols "SR_" (fun _ => "") ["ISIN"]
            [("MS_CompanyID", ""), ("MS_SecurityID", "")] ∧
    step2Row [] ["ABN"] [("SR_ISIN", "")]
        = setCols "MC_" (fun _ => "") ["ABN"] [("SR_ISIN", "")] ∧
    step3Row [] ["ABN"] [("CompanyTicker", " ")] = [("CompanyTicker", " ")] :=
  ⟨C5_empty_keys_never_match.2.2.2.1 [] ["ISIN"] _ (by decide),
   C5_empty_keys_never_match.2.2.2.2.1 [] ["ABN"] _ (by decide),
   C5_empty_keys_never_match.2.2.2.2.2 [] ["ABN"] _ (by decide)⟩

/-- C7: the fallback join is case-insensitive on ticker — for every symbol
index, a merged row with `CompanyTicker` `"abc"` and one with `"ABC"`
probe the index with the same key and so resolve to the same indexed
tertiary row. -/
theorem C7_ticker_case_insensitive (symL : List (String × Row)) (r1 r2 : Row)
    (h1 : getD r1 "CompanyTicker" "" = "abc")
    (h2 : getD r2 "CompanyTicker" "" = "ABC") :
    step3Probe symL r1 = step3Probe symL r2 := by
  simp only [step3Probe, h1, h2]
  rw [show upper (clean "abc") = upper (clean "ABC") from by decide]

theorem C7_ticker_case_insensitive_witness :
    step3Probe [("ABC", [("ABN", "1")])] [("CompanyTicker", "abc")]
      = step3Probe [("ABC", [("ABN", "1")])] [("CompanyTicker", "ABC")] :=
  C7_ticker_case_insensitive [("ABC", [("ABN", "1")])] _ _ (by decide) (by decide)

/-- C1 counterexample: a merged row that matched in the step-2 ISIN join
(`step2Matched` holds, `n_step2` was incremented) is nevertheless altered
by the step-3 fallback when its matching master row carried empty `ABN`,
`ACN` and `TradingStatus` — the fallback overwrites `MC_ABN` from `""` to
`"9"` via the row's ticker, so the claim's universal frame property fails
on the code. -/
theorem C1_fallback_overwrites_matched_row :
    step2Matched (mc_isin_lookup (exMaster.map normMaster)) exMerged1 = true ∧
    step3Row (mc_symbol_lookup (exMaster.map normMaster)) exMcCols exMerged2
        ≠ exMerged2 ∧
    getD exMerged2 "MC_ABN" "" = "" ∧
    getD (step3Row (mc_symbol_lookup (exMaster.map normMaster)) exMcCols exMerged2)
        "MC_ABN" "" = "9" := by
  decide

/-- C1 amended: a merged row that matched in the step-2 ISIN join is left
unchanged by the step-3 fallback — even when its uppercased ticker is in
the symbol index — provided the match left at least one of `MC_ABN`,
`MC_ACN`, `MC_TradingStatus` non-empty (the code's fallback-eligibility
test checks those three fields, not the match itself). -/
theorem C1_fallback_exclusivity_amended (isinL symL : List (String × Row))
    (mcCols : List String) (mrow : Row)
    (_hmatch : step2Matched isinL mrow = true)
    (hev : getD (step2Row isinL mcCols mrow) "MC_ABN" "" ≠ "" ∨
           getD (step2Row isinL mcCols mrow) "MC_ACN" "" ≠ "" ∨
           getD (step2Row isinL mcCols mrow) "MC_TradingStatus" "" ≠ "") :
    step3Row symL mcCols (step2Row isinL mcCols mrow)
      = step2Row isinL mcCols mrow := by
  unfold step3Row
  rw [if_pos hev]

theorem C1_fallback_exclusivity_amended_witness :
    step3Row [("T", [("ABN", "8")])] ["ABN"]
        (step2Row [("X", [("ABN", "7")])] ["ABN"]
          [("SR_ISIN", "X"), ("CompanyTicker", "t")])
      = step2Row [("X", [("ABN", "7")])] ["ABN"]
          [("SR_ISIN", "X"), ("CompanyTicker", "t")] :=
  C1_fallback_exclusivity_amended _ _ _ _ (by decide) (by decide)

/-- C6: running the full pipeline on the primary row
`{MS_CompanyID:"1", MS_SecurityID:"A", CompanyTicker:"xyz"}` with an empty
secondary collection and a tertiary collection containing
`{Symbol:"XYZ", ABN:"123"}` produces exactly one output row, in which
every `SR_`-prefixed field is the empty string and `MC_ABN` is `"123"`
(recovered through the symbol fallback). -/
theorem C6_concrete_scenario :
    scResult.output.length = 1 ∧
    ∀ r ∈ scResult.output,
      (∀ p ∈ r, p.1.data.take 3 = "SR_".data → p.2 = "") ∧
      getD r "MC_ABN" "" = "123" := by
  decide

/-- C9: a composite key with exactly one empty component is indexed and can
match — a secondary row with `CompanyId "A"` and `ShareClassId ""` is
stored under `("A", "")`, and a primary row with `MS_CompanyID "A"` and
`MS_SecurityID ""` joins to it, copying its fields; only the fully empty
pair `("", "")` is excluded. -/
theorem C9_single_empty_component_key (s : Row)
    (hC : getD s "CompanyId" "" = "A") (hS : getD s "ShareClassId" "" = "")
    (hs : s ≠ []) :
    lookupGet? (sr_lookup [s]) ("A", "") = some s ∧
    ∀ (p : Row) (srCols : List String),
      getD p "MS_CompanyID" "" = "A" → getD p "MS_SecurityID" "" = "" →
      step1Row (sr_lookup [s]) srCols p =
        setCols "SR_" (fun c => getD s c "") srCols p := by
  have hget : lookupGet? (sr_lookup [s]) ("A", "") = some s := by
    rw [sr_lookup_get]
    rw [if_neg (by decide)]
    simp [List.find?, hC, hS]
  refine ⟨hget, ?_⟩
  intro p srCols hp1 hp2
  have hie : s.isEmpty = false := by
    cases s with
    | nil => exact absurd rfl hs
    | cons a l => rfl
  simp [step1Row, hp1, hp2, hget, hie]

theorem C9_single_empty_component_key_witness :
    lookupGet?
        (sr_lookup [[("CompanyId", "A"), ("ShareClassId", ""), ("ISIN", "X")]])
        ("A", "")
      = some [("CompanyId", "A"), ("ShareClassId", ""), ("ISIN", "X")] ∧
    step1Row
        (sr_lookup [[("CompanyId", "A"), ("ShareClassId", ""), ("ISIN", "X")]])
        ["ISIN"] [("MS_CompanyID", "A"), ("MS_SecurityID", "")]
      = setCols "SR_"
          (fun c => getD [("CompanyId", "A"), ("ShareClassId", ""), ("ISIN", "X")] c "")
          ["ISIN"] [("MS_CompanyID", "A"), ("MS_SecurityID", "")] :=
  ⟨(C9_single_empty_component_key _ (by decide) (by decide) (by decide)).1,
   (C9_single_empty_component_key _ (by decide) (by decide) (by decide)).2
     [("MS_CompanyID", "A"), ("MS_SecurityID", "")] ["ISIN"]
     (by decide) (by decide)⟩

/-- C3: after all three join stages, every merged row has exactly the same
field-name set as every other merged row — the primary schema plus all
`SR_`-prefixed kept columns plus all `MC_`-prefixed kept columns —
including rows that matched in zero join stages. -/
theorem C3_schema_uniformity (sirca : List Row) (sircaCols : List String)
    (secref : List Row) (secrefCols : List String)
    (master : List Row) (masterCols : List String)
    (hschema : ∀ r ∈ sirca, ∀ k, k ∈ keys r ↔ k ∈ sircaCols)
    (hc1 : "MS_CompanyID" ∈ sircaCols) (hc2 : "MS_SecurityID" ∈ sircaCols) :
    ∀ m ∈ (runPipeline sirca sircaCols secref secrefCols master masterCols).merged,
      ∀ k, k ∈ keys m ↔
        (k ∈ sircaCols ∨
         (∃ c ∈ sr_cols_keep_base.filter (fun c => secrefCols.contains c),
            k = "SR_" ++ c) ∨
         (∃ c ∈ mc_cols_keep_base.filter (fun c => masterCols.contains c),
            k = "MC_" ++ c)) := by
  intro m hm k
  simp only [runPipeline, List.mem_map] at hm
  obtain ⟨m2, ⟨m1, ⟨r0, ⟨r, hr, rfl⟩, rfl⟩, rfl⟩, rfl⟩ := hm
  have h0 : ∀ a, a ∈ keys (normSirca r) ↔ a ∈ sircaCols := by
    intro a
    rw [mem_keys_normSirca, hschema r hr]
    constructor
    · rintro (h | rfl | rfl)
      · exact h
      · exact hc1
      · exact hc2
    · exact Or.inl
  have h1 : ∀ a, a ∈ keys (step1Row (sr_lookup (secref.map normSecref))
      (sr_cols_keep_base.filter fun c => secrefCols.contains c) (normSirca r)) ↔
      a ∈ sircaCols ∨
        ∃ c ∈ sr_cols_keep_base.filter (fun c => secrefCols.contains c),
          a = "SR_" ++ c := by
    intro a
    rw [mem_keys_step1Row, h0]
  have h2 : ∀ a, a ∈ keys (step2Row (mc_isin_lookup (master.map normMaster))
      (mc_cols_keep_base.filter fun c => masterCols.contains c)
      (step1Row (sr_lookup (secref.map normSecref))
        (sr_cols_keep_base.filter fun c => secrefCols.contains c)
        (normSirca r))) ↔
      (a ∈ sircaCols ∨
        (∃ c ∈ sr_cols_keep_base.filter (fun c => secrefCols.contains c),
          a = "SR_" ++ c) ∨
        (∃ c ∈ mc_cols_keep_base.filter (fun c => masterCols.contains c),
          a = "MC_" ++ c)) := by
    intro a
    rw [mem_keys_step2Row, h1, or_assoc]
  have hsub : ∀ c ∈ mc_cols_keep_base.filter (fun c => masterCols.contains c),
      ("MC_" ++ c) ∈ keys (step2Row (mc_isin_lookup (master.map normMaster))
        (mc_cols_keep_base.filter fun c => masterCols.contains c)
        (step1Row (sr_lookup (secref.map normSecref))
          (sr_cols_keep_base.filter fun c => secrefCols.contains c)
          (normSirca r))) := by
    intro c hc
    exact (h2 _).mpr (Or.inr (Or.inr ⟨c, hc, rfl⟩))
  rw [mem_keys_step3Row _ _ _ _ hsub, h2]

theorem C3_schema_uniformity_witness :
    "Gcode" ∈ keys [("Gcode", "G"), ("MS_CompanyID", "1"), ("MS_SecurityID", "A")] ↔
      ("Gcode" ∈ ["Gcode", "MS_CompanyID", "MS_SecurityID"] ∨
       (∃ c ∈ sr_cols_keep_base.filter (fun c => ([] : List String).contains c),
          "Gcode" = "SR_" ++ c) ∨
       (∃ c ∈ mc_cols_keep_base.filter (fun c => ([] : List String).contains c),
          "Gcode" = "MC_" ++ c)) :=
  C3_schema_uniformity
    [[("Gcode", "G"), ("MS_CompanyID", "1"), ("MS_SecurityID", "A")]]
    ["Gcode", "MS_CompanyID", "MS_SecurityID"] [] [] [] []
    (by
      intro r hr k
      have h := List.eq_of_mem_singleton hr
      subst h
      exact Iff.rfl)
    (by decide) (by decide)
    [("Gcode", "G"), ("MS_CompanyID", "1"), ("MS_SecurityID", "A")]
    (by decide) "Gcode"

/-- A loop `for c in xs: if p c: acc.append(c)` is `acc ++ xs.filter p`. -/
theorem foldl_append_filter (p : String → Prop) [DecidablePred p]
    (xs : List String) (acc : List String) :
    xs.foldl (fun acc c => if p c then acc ++ [c] else acc) acc
      = acc ++ xs.filter (fun c => decide (p c)) := by
  induction xs generalizing acc with
  | nil => simp
  | cons x xs ih =>
      rw [List.foldl_cons, ih]
      by_cases h : p x
      · simp [h, List.filter_cons]
      · simp [h, List.filter_cons]

/-- The output-column computation, characterised declaratively: the fixed
list filtered to the available schema, followed by the sirca-schema columns
outside that filtered list and outside the exclusion set, in schema
order. -/
theorem computeOutputCols_eq (merged : List Row) (sircaCols : List String) :
    computeOutputCols merged sircaCols =
      (let available : List String :=
        match merged with
        | [] => []
        | r :: _ => keys r
       let kept := output_cols_fixed.filter (fun c => available.contains c)
       kept ++ sircaCols.filter
         (fun c => decide (¬ kept.contains c ∧ ¬ skip_cols.contains c))) := by
  unfold computeOutputCols
  exact foldl_append_filter _ _ _

/-- C8: the output column list equals the fixed ordered list filtered to
the names present in the merged schema (requested names not in the schema
are dropped without error), followed by every primary-schema column not
already included and not in the exclusion set
`{join_key, ListDate_DaysSince, DelistDate_DaysSince}`, in the primary
schema's order. -/
theorem C8_output_columns (sirca : List Row) (sircaCols : List String)
    (secref : List Row) (secrefCols : List String)
    (master : List Row) (masterCols : List String) :
    (runPipeline sirca sircaCols secref secrefCols master masterCols).outputCols =
      (let available : List String :=
        match (runPipeline sirca sircaCols secref secrefCols master
            masterCols).merged with
        | [] => []
        | r :: _ => keys r
       let kept := output_cols_fixed.filter (fun c => available.contains c)
       kept ++ sircaCols.filter
         (fun c => decide (¬ kept.contains c ∧ ¬ skip_cols.contains c))) :=
  computeOutputCols_eq _ sircaCols

/-- C10: with an empty primary collection the merged collection is empty,
the schema-availability set is empty, every name of the fixed output list
is dropped, and the header is exactly the primary schema minus the
exclusion set, in schema order (and no data rows are written). -/
theorem C10_empty_primary_header (sircaCols : List String)
    (secref : List Row) (secrefCols : List String)
    (master : List Row) (masterCols : List String) :
    (runPipeline [] sircaCols secref secrefCols master masterCols).outputCols =
      sircaCols.filter (fun c => !skip_cols.contains c) ∧
    (runPipeline [] sircaCols secref secrefCols master masterCols).merged = [] ∧
    (runPipeline [] sircaCols secref secrefCols master masterCols).output = [] := by
  refine ⟨?_, rfl, rfl⟩
  have h : (runPipeline [] sircaCols secref secrefCols master
      masterCols).outputCols = computeOutputCols [] sircaCols := rfl
  rw [h, computeOutputCols_eq]
  have hkept : output_cols_fixed.filter
      (fun c => (([] : List String)).contains c) = [] := rfl
  simp only [hkept]
  rw [List.nil_append]
  refine List.filter_congr ?_
  intro c _
  cases hsk : skip_cols.contains c <;> simp [hsk]

end MasterReference
